import Mathlib

/-!
Verification development for a serde ↔ rmpv MessagePack `Value` bridge
(`src/ser.rs`, `src/de.rs`, `src/error.rs`, `src/lib.rs`).

The embedding models:
  * `Value`   — the external `rmpv::Value` tagged union (floats are carried
    as opaque bit patterns, since no claim computes with float arithmetic);
  * `Error`   — the crate's error enum (`TypeError` / `Format` / `Message` /
    `UnsupportedType`; the repository's file variants use both `Format` and
    `Message` for the malformed/custom kind, so both constructors appear);
  * `SValue`  — a deep embedding of the serde-data-model values the claims
    quantify over (the typed values fed to `to_value` and produced by
    `from_value`);
  * `Ty`      — the target-type shapes driving deserialization;
  * `to_value` — the encoder of `src/ser.rs` composed with the standard
    serde `Serialize` drivers for each `SValue` shape;
  * `from_value` — the decoder of `src/de.rs` composed with the standard
    serde `Deserialize` visitors for each `Ty` shape.

Rust panics (`unwrap` on the ext-struct encode path) are modelled
explicitly by the `EncErr.fatal` outcome, kept distinct from the
user-visible `Error` results.
-/

namespace Rmpv

/-- The four fixed integer widths of the serde data model (8/16/32/64). -/
inductive Width
| w8
| w16
| w32
| w64
deriving DecidableEq, Repr

/-- Number of bits of a `Width`. -/
def Width.bits : Width → Nat
| .w8 => 8
| .w16 => 16
| .w32 => 32
| .w64 => 64

/-- The external `rmpv::Value` tagged union.  `int` carries the mathematical
integer; the representable range of the external `Integer` type
(`[-2^63, 2^64)`) is enforced by the accessors below, mirroring the
`as_i64` / `as_u64` behaviour of the external crate.  `f32` / `f64` carry
opaque bit patterns. -/
inductive Value
| nil
| bool (b : Bool)
| int (i : Int)
| f32 (bits : Nat)
| f64 (bits : Nat)
| str (s : String)
| bin (bs : List Nat)
| arr (xs : List Value)
| map (es : List (Value × Value))
| ext (tag : Int) (data : List Nat)

/-- The crate's error enum (`src/error.rs`), extended with the `Message`
constructor used by the repository's `de.rs`/`ser.rs` file variants
(the spec treats `Format`/`Message` as the single "Malformed" kind). -/
inductive Error
| typeError (msg : String)
| format (msg : String)
| message (msg : String)
| unsupportedType
deriving DecidableEq, Repr

/-- Encoding outcome errors: either a user-visible `Error`, or a Rust
panic (`fatal`), which `src/ser.rs` can hit via `unwrap()` on the
`_ExtStruct` path. -/
inductive EncErr
| err (e : Error)
| fatal (msg : String)
deriving DecidableEq, Repr

/-- `rmpv::Value::as_bool`: `Some` exactly on the `Boolean` variant. -/
def as_bool : Value → Option Bool
| .bool b => some b
| _ => none

/-- `rmpv::Value::as_i64`: `Some` exactly on `Integer` values that fit in
a signed 64-bit integer. -/
def as_i64 : Value → Option Int
| .int i => if -(2 ^ 63) ≤ i ∧ i < 2 ^ 63 then some i else none
| _ => none

/-- `rmpv::Value::as_u64`: `Some` exactly on `Integer` values that fit in
an unsigned 64-bit integer. -/
def as_u64 : Value → Option Int
| .int i => if 0 ≤ i ∧ i < 2 ^ 64 then some i else none
| _ => none

/-- Modelled from the spec: the external collaborator accessor `as_f64`.
Only the `F64` variant is modelled (claims never exercise the external
crate's numeric widening of `Integer`/`F32` sources, which an opaque
bit-pattern representation cannot express). -/
def as_f64 : Value → Option Nat
| .f64 bits => some bits
| _ => none

/-- `rmpv::Value::as_str`: `Some` exactly on the `String` variant. -/
def as_str : Value → Option String
| .str s => some s
| _ => none

/-- `rmpv::Value::as_slice`: `Some` exactly on the `Binary` variant. -/
def as_slice : Value → Option (List Nat)
| .bin bs => some bs
| _ => none

/-- `rmpv::Value::as_array`: `Some` exactly on the `Array` variant. -/
def as_array : Value → Option (List Value)
| .arr xs => some xs
| _ => none

/-- `rmpv::Value::as_map`: `Some` exactly on the `Map` variant. -/
def as_map : Value → Option (List (Value × Value))
| .map es => some es
| _ => none

/-- `rmpv::Value::as_ext`: `Some` exactly on the `Ext` variant. -/
def as_ext : Value → Option (Int × List Nat)
| .ext tag data => some (tag, data)
| _ => none

/-- Rust's truncating cast of a 64-bit value to an unsigned `b`-bit
integer (`v as uN`). -/
def truncU (b : Nat) (i : Int) : Int := i % (2 ^ b : Int)

/-- Rust's truncating cast of a 64-bit value to a signed `b`-bit
two's-complement integer (`v as iN`). -/
def truncS (b : Nat) (i : Int) : Int :=
  let m := i % (2 ^ b : Int)
  if m < 2 ^ (b - 1) then m else m - 2 ^ b

/-- `MSGPACK_EXT_STRUCT_NAME` (`src/lib.rs`): the reserved newtype-struct
name marking the MessagePack Ext convention. -/
def extStructName : String := "_ExtStruct"

/-- Deep embedding of the serde-data-model values the claims quantify
over: the typed Rust values fed to `to_value` / produced by `from_value`.
`sint`/`uint` carry their declared width next to the mathematical value;
`ext` is the `_ExtStruct((i8, Vec<u8>))` wrapper of the crate's tests;
`newtypeStruct` is an arbitrary serde newtype struct (used to state the
`_ExtStruct` encode convention over arbitrary payloads). -/
inductive SValue
| bool (b : Bool)
| sint (w : Width) (i : Int)
| uint (w : Width) (n : Int)
| f32 (bits : Nat)
| f64 (bits : Nat)
| char (c : Char)
| str (s : String)
| bytes (bs : List Nat)
| optNone
| optSome (v : SValue)
| unit
| unitStruct (name : String)
| newtypeStruct (name : String) (v : SValue)
| seq (vs : List SValue)
| map (es : List (SValue × SValue))
| unitVariant (variant : String)
| ext (tag : Int) (data : List Nat)

/-- The `_ExtStruct` recognition step of `serialize_newtype_struct`
(`src/ser.rs` lines 165–176), applied to the independently encoded
payload `nv`.  `vec[0].as_u64().unwrap().try_into().unwrap()` panics when
element 0 is not unsigned-coercible or exceeds `i8::MAX = 127`; these
panics are the `EncErr.fatal` outcomes. -/
def extEncode (nv : Value) : Except EncErr Value :=
  match nv with
  | .arr vec =>
    match vec with
    | [x0, x1] =>
      match as_u64 x0 with
      | Option.none => .error (.fatal "called Option::unwrap on a None value")
      | Option.some n =>
        if n ≤ 127 then
          match x1 with
          | .bin data => .ok (.ext n data)
          | _ => .error (.err (.message "invalid ext struct"))
        else .error (.fatal "out of range integral type conversion attempted")
    | _ => .error (.err (.message "invalid ext struct"))
  | _ => .error (.err (.message "invalid ext struct"))

mutual

/-- `to_value` (`src/ser.rs`): the encoder, with serde's standard
`Serialize` driving composed in for each `SValue` shape.  Containers
follow the output-slot building of `SerializeSeq`/`SerializeMap`
(initialize empty, append each independently encoded child in order,
aborting on the first failure). -/
def to_value : SValue → Except EncErr Value
| .bool b => .ok (.bool b)
| .sint _ i => .ok (.int i)
| .uint _ n => .ok (.int n)
| .f32 bits => .ok (.f32 bits)
| .f64 bits => .ok (.f64 bits)
| .char c => .ok (.str c.toString)
| .str s => .ok (.str s)
| .bytes bs => .ok (.bin bs)
| .optNone => .ok .nil
| .optSome v => to_value v
| .unit => .ok .nil
| .unitStruct _ => .ok .nil
| .newtypeStruct name v =>
  if name = extStructName then
    match to_value v with
    | .error e => .error e
    | .ok nv => extEncode nv
  else to_value v
| .seq vs =>
  match toValueList vs with
  | .error e => .error e
  | .ok ws => .ok (.arr ws)
| .map es =>
  match toValuePairs es with
  | .error e => .error e
  | .ok ps => .ok (.map ps)
| .unitVariant variant => .ok (.str variant)
| .ext tag data =>
  -- `serialize_newtype_struct` with name `_ExtStruct`: the inner
  -- `(i8, Vec<u8>)` tuple always encodes to `Arr [Int tag, Bin data]`,
  -- which is then run through the ext recognition step.
  extEncode (.arr [.int tag, .bin data])

/-- Encode a list of sequence elements in order (`serialize_seq_element`,
first failure aborts). -/
def toValueList : List SValue → Except EncErr (List Value)
| [] => .ok []
| v :: rest =>
  match to_value v with
  | .error e => .error e
  | .ok w =>
    match toValueList rest with
    | .error e => .error e
    | .ok ws => .ok (w :: ws)

/-- Encode a list of map entries in order (`serialize_key` then
`serialize_value`, first failure aborts). -/
def toValuePairs : List (SValue × SValue) → Except EncErr (List (Value × Value))
| [] => .ok []
| (k, v) :: rest =>
  match to_value k with
  | .error e => .error e
  | .ok kw =>
    match to_value v with
    | .error e => .error e
    | .ok vw =>
      match toValuePairs rest with
      | .error e => .error e
      | .ok ps => .ok ((kw, vw) :: ps)

end

example : to_value (.seq [.uint .w8 1, .bool true]) = .ok (.arr [.int 1, .bool true]) := rfl

example : to_value (.ext 42 [1, 2, 3]) = .ok (.ext 42 [1, 2, 3]) := rfl

/-- `Display` for `Error` (`src/error.rs`); used by the decoder when it
wraps a nested element/entry error in `Error::Message(e.to_string())`.
The `message` arm mirrors `format` (the spec's single "Malformed" kind). -/
def errString : Error → String
| .typeError msg => "invalid type: " ++ msg
| .format msg => msg
| .message msg => msg
| .unsupportedType => "unsupported type"

mutual

/-- Modelled from the spec: the external `rmpv` crate's `Display` for
`Value`, used only inside `expected string: {}` error messages
(`deserialize_str`/`deserialize_string`).  Rendering is approximate
(floats are opaque bit patterns here); no claim depends on its output. -/
def displayValue : Value → String
| .nil => "nil"
| .bool b => if b then "true" else "false"
| .int i => toString i
| .f32 bits => toString bits
| .f64 bits => toString bits
| .str s => "\"" ++ s ++ "\""
| .bin bs => toString bs
| .arr xs => "[" ++ displayValueList xs ++ "]"
| .map es => "\x7b" ++ displayValuePairs es ++ "\x7d"
| .ext tag data => "Ext(" ++ toString tag ++ ", " ++ toString data ++ ")"

/-- Comma-separated rendering of an array's elements. -/
def displayValueList : List Value → String
| [] => ""
| [x] => displayValue x
| x :: rest => displayValue x ++ ", " ++ displayValueList rest

/-- Comma-separated rendering of a map's entries. -/
def displayValuePairs : List (Value × Value) → String
| [] => ""
| [(k, v)] => displayValue k ++ ": " ++ displayValue v
| (k, v) :: rest => displayValue k ++ ": " ++ displayValue v ++ ", " ++ displayValuePairs rest

end

/-- The three payload-bearing variant shapes rejected by the decoder's
`VariantAccess` implementation (`src/de.rs` lines 616–648). -/
inductive VariantKind
| newtype
| tuple
| structV
deriving DecidableEq, Repr

/-- The `expected` description serde's `invalid_type` receives for each
rejected variant shape. -/
def VariantKind.expected : VariantKind → String
| .newtype => "newtype variant"
| .tuple => "tuple variant"
| .structV => "struct variant"

/-- Target-type shapes driving deserialization: each constructor selects
which `deserialize_*` entry point of `src/de.rs` the target type's
`Deserialize` implementation invokes.  `any` is the untyped/self-describing
request (`deserialize_any`); `ext` is the `_ExtStruct((i8, Vec<u8>))`
wrapper target; `enumUnit`/`enumPayload` are enums whose matched variant
is payload-free resp. payload-bearing. -/
inductive Ty
| bool
| sint (w : Width)
| uint (w : Width)
| f32
| f64
| char
| str
| bytes
| option (t : Ty)
| seq (t : Ty)
| map (kt vt : Ty)
| enumUnit (variants : List String)
| enumPayload (k : VariantKind) (variants : List String)
| ext
| any

/-- What the standard serde visitor of target shape `t` does with a
`visit_i8` call (issued by `ExtIdDeserializer::deserialize_any`,
`src/de.rs` line 392).  Integer targets accept (the visited value, being
an `i8`, is always in range for signed widths; unsigned widths
range-check); every other target rejects with serde's `invalid_type`
error (via `Error::custom`, hence the `format` constructor).  serde's
numeric cast into `f64` targets is not modelled (unexercised by claims). -/
def visitI8 (t : Ty) (i : Int) : Except Error SValue :=
  match t with
  | .sint w => .ok (.sint w i)
  | .uint w =>
    if 0 ≤ i then .ok (.uint w i)
    else .error (.format "invalid value: integer out of range")
  | _ => .error (.format "invalid type: i8")

/-- What the standard serde visitor of target shape `t` does with a
`visit_bytes` call (issued by `ExtValueDeserializer::deserialize_any`,
`src/de.rs` line 364).  Bytes targets accept; every other target rejects
with serde's `invalid_type` error.  serde's UTF-8-validating acceptance
into `String` targets is not modelled (unexercised by claims). -/
def visitBytes (t : Ty) (bs : List Nat) : Except Error SValue :=
  match t with
  | .bytes => .ok (.bytes bs)
  | _ => .error (.format "invalid type: byte array")

/-- serde's `unknown_variant` message for a discriminant string that does
not name any declared variant (reaches the crate via `Error::custom`). -/
def unknownVariantMsg (s : String) : String :=
  "unknown variant `" ++ s ++ "`"

/-- The shape a sequence/tuple decode request exposes to the visitor:
`deserialize_seq` (`src/de.rs` lines 275–288) defunctionalized.
`bytes` is the `visit_bytes` call made for a `Binary` input; `extSeq` is
the 2-element `ExtDeserializer` sequence made for an `Ext` input;
`elems` is the element-by-element `ArrayAccess` made for an `Array`. -/
inductive SeqExposure
| bytes (bs : List Nat)
| extSeq (tag : Int) (data : List Nat)
| elems (xs : List Value)

/-- `deserialize_seq` dispatch (`src/de.rs` lines 275–288): which
exposure, if any, a sequence/tuple request makes for each input tag. -/
def seqExposure : Value → Except Error SeqExposure
| .bin bs => .ok (.bytes bs)
| .ext tag data => .ok (.extSeq tag data)
| .arr xs => .ok (.elems xs)
| _ => .error (.typeError "expected sequence type")

/-- One element of the 2-element sequence an `Ext` value is exposed as. -/
inductive ExtElem
| tag (i : Int)
| bytes (bs : List Nat)
deriving Repr

/-- The cursor of `ExtDeserializer`'s `SeqAccess` (`src/de.rs` lines
438–461): element 0 is the tag narrowed to `i8` (`as_i64().unwrap() as
i8`, identity on the stored `i8` range), element 1 is the byte payload,
and every later offset yields "no more elements". -/
def extElementAt (id : Int) (data : List Nat) (offset : Nat) : Option ExtElem :=
  match offset with
  | 0 => some (.tag (truncS 8 id))
  | 1 => some (.bytes data)
  | _ => none

mutual

/-- `deserialize_any` (`src/de.rs` lines 29–43) composed with the
self-describing visitor: dispatch on the input's runtime tag, recursing
into `Array`/`Map` children; `F32`/`F64`/`Ext` inputs are unsupported. -/
def fromAny : Value → Except Error SValue
| .nil => .ok .unit
| .bool b => .ok (.bool b)
| .int i =>
  -- forwarded to `deserialize_i64`
  match as_i64 (.int i) with
  | Option.some i' => .ok (.sint .w64 i')
  | Option.none => .error (.typeError "expected i64")
| .str s => .ok (.str s)
| .arr xs =>
  match fromAnyList xs with
  | .error e => .error e
  | .ok svs => .ok (.seq svs)
| .map es =>
  match fromAnyPairs es with
  | .error e => .error e
  | .ok ps => .ok (.map ps)
| .bin bs => .ok (.bytes bs)
| .f32 _ => .error .unsupportedType
| .f64 _ => .error .unsupportedType
| .ext _ _ => .error .unsupportedType

/-- `ArrayAccess` stepping for an untyped request: each element is decoded
with a fresh deserializer, failures wrapped in `Error::Message`. -/
def fromAnyList : List Value → Except Error (List SValue)
| [] => .ok []
| x :: rest =>
  match fromAny x with
  | .error e => .error (.message (errString e))
  | .ok sv =>
    match fromAnyList rest with
    | .error e => .error e
    | .ok svs => .ok (sv :: svs)

/-- `ValueMapAccess` stepping for an untyped request: key then value per
stored entry, failures wrapped in `Error::Message`. -/
def fromAnyPairs : List (Value × Value) → Except Error (List (SValue × SValue))
| [] => .ok []
| (k, v) :: rest =>
  match fromAny k with
  | .error e => .error (.message (errString e))
  | .ok ks =>
    match fromAny v with
    | .error e => .error (.message (errString e))
    | .ok vs =>
      match fromAnyPairs rest with
      | .error e => .error e
      | .ok ps => .ok ((ks, vs) :: ps)

end

mutual

/-- `from_value` (`src/de.rs`): the decoder, with the standard serde
`Deserialize` visitor of each target shape composed in.  Each arm
transcribes the `deserialize_*` method the target shape invokes. -/
def from_value : Ty → Value → Except Error SValue
| .bool, v =>
  match as_bool v with
  | Option.some b => .ok (.bool b)
  | Option.none => .error (.typeError "expected bool")
| .sint w, v =>
  -- deserialize_i8/i16/i32/i64: a single 64-bit read then `as iN`
  -- (the 64-bit truncation is the identity on `as_i64`'s range)
  match as_i64 v with
  | Option.some i => .ok (.sint w (truncS w.bits i))
  | Option.none => .error (.typeError ("expected i" ++ toString w.bits))
| .uint w, v =>
  -- deserialize_u8/u16/u32/u64: a single 64-bit read then `as uN`
  match as_u64 v with
  | Option.some n => .ok (.uint w (truncU w.bits n))
  | Option.none => .error (.typeError ("expected u" ++ toString w.bits))
| .f32, _ => .error .unsupportedType
| .f64, v =>
  match as_f64 v with
  | Option.some bits => .ok (.f64 bits)
  | Option.none => .error (.typeError "expected f64")
| .char, _ => .error .unsupportedType
| .str, v =>
  match as_str v with
  | Option.some s => .ok (.str s)
  | Option.none => .error (.typeError ("expected string: " ++ displayValue v))
| .bytes, v =>
  match as_slice v with
  | Option.some bs => .ok (.bytes bs)
  | Option.none => .error (.typeError "expected binary")
| .option t, v =>
  -- deserialize_option: Nil ⇒ absent, anything else ⇒ present,
  -- recursing into the same value
  match v with
  | .nil => .ok .optNone
  | w =>
    match from_value t w with
    | .error e => .error e
    | .ok sv => .ok (.optSome sv)
| .seq t, v =>
  -- deserialize_seq / deserialize_tuple (same dispatch as seqExposure)
  match v with
  | .bin _ =>
    -- visit_bytes on a sequence visitor: rejected by serde's default
    .error (.format "invalid type: byte array, expected a sequence")
  | .ext id data =>
    -- ExtDeserializer: a 2-element sequence [tag as i8, bytes]
    match visitI8 t (truncS 8 id) with
    | .error e => .error e
    | .ok e0 =>
      match visitBytes t data with
      | .error e => .error e
      | .ok e1 => .ok (.seq [e0, e1])
  | .arr xs =>
    match fromValueList t xs with
    | .error e => .error e
    | .ok svs => .ok (.seq svs)
  | _ => .error (.typeError "expected sequence type")
| .map kt vt, v =>
  match v with
  | .map es =>
    match fromValuePairs kt vt es with
    | .error e => .error e
    | .ok ps => .ok (.map ps)
  | _ => .error (.typeError "expected map")
| .enumUnit variants, v =>
  -- deserialize_enum with UnitVariantAccess: the discriminant is read
  -- through a string-shaped decode, then unit_variant() succeeds
  match as_str v with
  | Option.none => .error (.typeError ("expected string: " ++ displayValue v))
  | Option.some s =>
    if s ∈ variants then .ok (.unitVariant s)
    else .error (.format (unknownVariantMsg s))
| .enumPayload k variants, v =>
  -- same discriminant read, then newtype_variant_seed / tuple_variant /
  -- struct_variant, all of which fail with serde's invalid_type
  match as_str v with
  | Option.none => .error (.typeError ("expected string: " ++ displayValue v))
  | Option.some s =>
    if s ∈ variants then
      .error (.format ("invalid type: unit variant, expected " ++ k.expected))
    else .error (.format (unknownVariantMsg s))
| .ext, v =>
  -- deserialize_newtype_struct is a transparent wrapper; the inner
  -- (i8, bytes) tuple goes through deserialize_tuple → deserialize_seq
  match v with
  | .ext id data => .ok (.ext (truncS 8 id) data)
  | .arr xs =>
    match xs with
    | x0 :: x1 :: _ =>
      match from_value (.sint .w8) x0 with
      | .error e => .error (.message (errString e))
      | .ok sv0 =>
        match from_value .bytes x1 with
        | .error e => .error (.message (errString e))
        | .ok sv1 =>
          match sv0, sv1 with
          | .sint _ i, .bytes bs => .ok (.ext i bs)
          | _, _ =>
            -- unreachable: those shapes only return their own constructor
            .error (.format "invalid ext tuple")
    | _ => .error (.format "invalid length")
  | .bin _ => .error (.format "invalid type: byte array, expected a tuple of size 2")
  | _ => .error (.typeError "expected sequence type")
| .any, v => fromAny v
termination_by t v => (sizeOf v, sizeOf t)

/-- `ArrayAccess` stepping (`src/de.rs` lines 511–534): each element is
decoded with a fresh deserializer at the cursor, failures wrapped in
`Error::Message(e.to_string())`; the cursor reaching the length yields
"no more elements". -/
def fromValueList : Ty → List Value → Except Error (List SValue)
| _, [] => .ok []
| t, x :: rest =>
  match from_value t x with
  | .error e => .error (.message (errString e))
  | .ok sv =>
    match fromValueList t rest with
    | .error e => .error e
    | .ok svs => .ok (sv :: svs)
termination_by t xs => (sizeOf xs, sizeOf t + 1)

/-- `ValueMapAccess` stepping (`src/de.rs` lines 547–583): key then value
of each stored entry in order, failures wrapped in `Error::Message`. -/
def fromValuePairs : Ty → Ty → List (Value × Value) → Except Error (List (SValue × SValue))
| _, _, [] => .ok []
| kt, vt, (k, v) :: rest =>
  match from_value kt k with
  | .error e => .error (.message (errString e))
  | .ok ks =>
    match from_value vt v with
    | .error e => .error (.message (errString e))
    | .ok vs =>
      match fromValuePairs kt vt rest with
      | .error e => .error e
      | .ok ps => .ok ((ks, vs) :: ps)
termination_by kt vt es => (sizeOf es, sizeOf kt + sizeOf vt + 1)

end

/-- `i` is a value of the signed `w`-bit Rust integer type. -/
def inRangeS (w : Width) (i : Int) : Bool :=
  decide (-(2 ^ (w.bits - 1)) ≤ i) && decide (i < 2 ^ (w.bits - 1))

/-- `n` is a value of the unsigned `w`-bit Rust integer type. -/
def inRangeU (w : Width) (n : Int) : Bool :=
  decide (0 ≤ n) && decide (n < 2 ^ w.bits)

mutual

/-- The typed value `v` inhabits target shape `t` within the claims'
round-trip universe: bool, fixed-width integers, f32, f64, text, bytes,
optionals, homogeneous sequences, maps, unit-variant enums (with a
declared variant), and the `_ExtStruct` wrapper (with an `i8` tag). -/
def hasTy : SValue → Ty → Bool
| .bool _, .bool => true
| .sint w i, .sint w' => w == w' && inRangeS w i
| .uint w n, .uint w' => w == w' && inRangeU w n
| .f32 _, .f32 => true
| .f64 _, .f64 => true
| .str _, .str => true
| .bytes _, .bytes => true
| .optNone, .option _ => true
| .optSome v, .option t => hasTy v t
| .seq vs, .seq t => hasTyList vs t
| .map es, .map kt vt => hasTyPairs es kt vt
| .unitVariant s, .enumUnit variants => decide (s ∈ variants)
| .ext tag _, .ext => decide (-128 ≤ tag) && decide (tag ≤ 127)
| _, _ => false

/-- Every sequence element inhabits the element shape. -/
def hasTyList : List SValue → Ty → Bool
| [], _ => true
| v :: rest, t => hasTy v t && hasTyList rest t

/-- Every map entry inhabits the key/value shapes. -/
def hasTyPairs : List (SValue × SValue) → Ty → Ty → Bool
| [], _, _ => true
| (k, v) :: rest, kt, vt => hasTy k kt && hasTy v vt && hasTyPairs rest kt vt

end

/-- `to_value` maps `v` to `Nil`: exactly the absent optional, chains of
present optionals ending in an absent one, unit, and unit structs. -/
def encNil : SValue → Bool
| .optNone => true
| .optSome v => encNil v
| .unit => true
| .unitStruct _ => true
| .newtypeStruct name v => if name = extStructName then false else encNil v
| _ => false

mutual

/-- The side conditions under which the round trip actually holds on the
universe: no `f32` anywhere (its decode is unsupported), every
`_ExtStruct` tag is non-negative (negative tags make the encoder panic),
and no present optional wraps a value that encodes to `Nil` (such nests
collapse to `Nil` and decode as the absent optional). -/
def rtSafe : SValue → Bool
| .f32 _ => false
| .optSome v => !encNil v && rtSafe v
| .seq vs => rtSafeList vs
| .map es => rtSafePairs es
| .ext tag _ => decide (0 ≤ tag)
| .newtypeStruct _ v => rtSafe v
| _ => true

/-- `rtSafe` for every sequence element. -/
def rtSafeList : List SValue → Bool
| [] => true
| v :: rest => rtSafe v && rtSafeList rest

/-- `rtSafe` for every map entry. -/
def rtSafePairs : List (SValue × SValue) → Bool
| [] => true
| (k, v) :: rest => rtSafe k && rtSafe v && rtSafePairs rest

end

theorem inRangeS_bounds (w : Width) (i : Int) (h : inRangeS w i = true) :
    -(2 ^ 63) ≤ i ∧ i < 2 ^ 63 := by
  cases w <;> simp [inRangeS, Width.bits] at h <;> constructor <;> omega

theorem truncS_id (w : Width) (i : Int) (h : inRangeS w i = true) :
    truncS w.bits i = i := by
  cases w <;> simp [inRangeS, Width.bits] at h <;> simp [truncS, Width.bits] <;> omega

theorem as_i64_int (w : Width) (i : Int) (h : inRangeS w i = true) :
    as_i64 (.int i) = some i := by
  have := inRangeS_bounds w i h
  simp [as_i64]
  omega

theorem inRangeU_bounds (w : Width) (n : Int) (h : inRangeU w n = true) :
    0 ≤ n ∧ n < 2 ^ 64 := by
  cases w <;> simp [inRangeU, Width.bits] at h <;> constructor <;> omega

theorem truncU_id (w : Width) (n : Int) (h : inRangeU w n = true) :
    truncU w.bits n = n := by
  cases w <;> simp [inRangeU, Width.bits] at h <;> simp [truncU, Width.bits] <;> omega

theorem as_u64_int (w : Width) (n : Int) (h : inRangeU w n = true) :
    as_u64 (.int n) = some n := by
  have := inRangeU_bounds w n h
  simp [as_u64]
  omega

mutual

theorem rtAux (v : SValue) (t : Ty) (h : hasTy v t = true) (hs : rtSafe v = true) :
    ∃ w, to_value v = .ok w ∧ from_value t w = .ok v ∧ (encNil v = false → w ≠ .nil) := by
  cases v with
  | bool b =>
    cases t <;> simp [hasTy] at h
    exact ⟨.bool b, by simp [to_value], by simp [from_value, as_bool], by simp⟩
  | sint w i =>
    cases t <;> simp [hasTy] at h
    obtain ⟨hw, hr⟩ := h
    subst hw
    refine ⟨.int i, by simp [to_value], ?_, by simp⟩
    simp [from_value, as_i64_int w i hr, truncS_id w i hr]
  | uint w n =>
    cases t <;> simp [hasTy] at h
    obtain ⟨hw, hr⟩ := h
    subst hw
    refine ⟨.int n, by simp [to_value], ?_, by simp⟩
    simp [from_value, as_u64_int w n hr, truncU_id w n hr]
  | f32 bits =>
    simp [rtSafe] at hs
  | f64 bits =>
    cases t <;> simp [hasTy] at h
    exact ⟨.f64 bits, by simp [to_value], by simp [from_value, as_f64], by simp⟩
  | char c =>
    cases t <;> simp [hasTy] at h
  | str s =>
    cases t <;> simp [hasTy] at h
    exact ⟨.str s, by simp [to_value], by simp [from_value, as_str], by simp⟩
  | bytes bs =>
    cases t <;> simp [hasTy] at h
    exact ⟨.bin bs, by simp [to_value], by simp [from_value, as_slice], by simp⟩
  | optNone =>
    cases t <;> simp [hasTy] at h
    exact ⟨.nil, by simp [to_value], by simp [from_value], by simp [encNil]⟩
  | optSome v' =>
    cases t with
    | option t' =>
      simp [hasTy] at h
      simp [rtSafe, Bool.and_eq_true] at hs
      obtain ⟨w, hw1, hw2, hw3⟩ := rtAux v' t' h hs.2
      have hnn : w ≠ .nil := hw3 (by simpa using hs.1)
      refine ⟨w, by simp [to_value, hw1], ?_, fun _ => hnn⟩
      cases w <;> first
      | exact absurd rfl hnn
      | simp [from_value, hw2]
    | _ => simp [hasTy] at h
  | unit =>
    cases t <;> simp [hasTy] at h
  | unitStruct name =>
    cases t <;> simp [hasTy] at h
  | newtypeStruct name v' =>
    cases t <;> simp [hasTy] at h
  | seq vs =>
    cases t with
    | seq t' =>
      simp [hasTy] at h
      simp [rtSafe] at hs
      obtain ⟨ws, h1, h2⟩ := rtAuxList vs t' h hs
      exact ⟨.arr ws, by simp [to_value, h1], by simp [from_value, h2], by simp⟩
    | _ => simp [hasTy] at h
  | map es =>
    cases t with
    | map kt vt =>
      simp [hasTy] at h
      simp [rtSafe] at hs
      obtain ⟨ps, h1, h2⟩ := rtAuxPairs es kt vt h hs
      exact ⟨.map ps, by simp [to_value, h1], by simp [from_value, h2], by simp⟩
    | _ => simp [hasTy] at h
  | unitVariant s =>
    cases t <;> simp [hasTy] at h
    exact ⟨.str s, by simp [to_value], by simp [from_value, as_str, h], by simp⟩
  | ext tag data =>
    cases t <;> simp [hasTy] at h
    simp [rtSafe] at hs
    refine ⟨.ext tag data, ?_, ?_, by simp⟩
    · have h1 : as_u64 (.int tag) = some tag := by simp [as_u64]; omega
      simp [to_value, extEncode, h1]
      omega
    · have h2 : truncS 8 tag = tag := by simp [truncS]; omega
      simp [from_value, h2]

theorem rtAuxList (vs : List SValue) (t : Ty) (h : hasTyList vs t = true)
    (hs : rtSafeList vs = true) :
    ∃ ws, toValueList vs = .ok ws ∧ fromValueList t ws = .ok vs := by
  cases vs with
  | nil => exact ⟨[], by simp [toValueList], by simp [fromValueList]⟩
  | cons v rest =>
    simp [hasTyList, Bool.and_eq_true] at h
    simp [rtSafeList, Bool.and_eq_true] at hs
    obtain ⟨w, hw1, hw2, _⟩ := rtAux v t h.1 hs.1
    obtain ⟨ws, hl1, hl2⟩ := rtAuxList rest t h.2 hs.2
    exact ⟨w :: ws, by simp [toValueList, hw1, hl1], by simp [fromValueList, hw2, hl2]⟩

theorem rtAuxPairs (es : List (SValue × SValue)) (kt vt : Ty)
    (h : hasTyPairs es kt vt = true) (hs : rtSafePairs es = true) :
    ∃ ps, toValuePairs es = .ok ps ∧ fromValuePairs kt vt ps = .ok es := by
  cases es with
  | nil => exact ⟨[], by simp [toValuePairs], by simp [fromValuePairs]⟩
  | cons e rest =>
    obtain ⟨k, v⟩ := e
    simp [hasTyPairs, Bool.and_eq_true] at h
    simp [rtSafePairs, Bool.and_eq_true] at hs
    obtain ⟨⟨hk, hv⟩, hr⟩ := h
    obtain ⟨⟨sk, sv⟩, sr⟩ := hs
    obtain ⟨kw, hk1, hk2, _⟩ := rtAux k kt hk sk
    obtain ⟨vw, hv1, hv2, _⟩ := rtAux v vt hv sv
    obtain ⟨ps, hp1, hp2⟩ := rtAuxPairs rest kt vt hr sr
    exact ⟨(kw, vw) :: ps, by simp [toValuePairs, hk1, hv1, hp1],
      by simp [fromValuePairs, hk2, hv2, hp2]⟩

end


/-- C1 counterexample: the claim's universe includes f32 values, negative
ext tags, and nested optionals, and on those the round trip fails: an
f32 value encodes but its decode is unsupported; an `_ExtStruct` with
tag `-1` makes the encoder panic; `Some(None)` encodes to `Nil`, which
decodes back as `None`, not `Some(None)`. -/
theorem claim_C1_roundtrip_counterexample :
    to_value (.f32 0) = .ok (.f32 0) ∧
    hasTy (.f32 0) .f32 = true ∧
    from_value .f32 (.f32 0) = .error .unsupportedType ∧
    to_value (.ext (-1) [1]) = .error (.fatal "called Option::unwrap on a None value") ∧
    to_value (.optSome .optNone) = .ok .nil ∧
    from_value (.option (.option .bool)) Value.nil = .ok .optNone := by
  refine ⟨rfl, rfl, by simp [from_value], ?_, rfl, by simp [from_value]⟩
  simp [to_value, extEncode, as_u64]

/-- C1 amended: for every value of the claim's universe (bool, fixed-width
integers, f64, text, bytes, optionals, sequences, maps, unit-variant
enums, `_ExtStruct` wrappers) excluding f32 values, with ext tags
non-negative, and with no present optional wrapping a `Nil`-encoding
value (`rtSafe`), decoding the encoding succeeds and returns the original
value. -/
theorem claim_C1_roundtrip (v : SValue) (t : Ty) (h : hasTy v t = true)
    (hs : rtSafe v = true) :
    ∃ w, to_value v = .ok w ∧ from_value t w = .ok v := by
  obtain ⟨w, h1, h2, _⟩ := rtAux v t h hs
  exact ⟨w, h1, h2⟩

/-- Witness for C1: a concrete universe value (a present optional holding
an `_ExtStruct` wrapper) round-trips. -/
theorem claim_C1_roundtrip_witness :
    hasTy (.optSome (.ext 42 [1, 2, 3])) (.option .ext) = true ∧
    rtSafe (.optSome (.ext 42 [1, 2, 3])) = true ∧
    ∃ w, to_value (.optSome (.ext 42 [1, 2, 3])) = .ok w ∧
      from_value (.option .ext) w = .ok (.optSome (.ext 42 [1, 2, 3])) :=
  ⟨by decide, by decide, claim_C1_roundtrip _ _ (by decide) (by decide)⟩

/-- C2: encoding the `_ExtStruct` wrapper holding `(42i8, [1,2,3])` yields
exactly `Ext(42, [1,2,3])`, and decoding `Ext(42, [1,2,3])` into that
wrapper type yields `(42, [1,2,3])`. -/
theorem claim_C2_ext_concrete :
    to_value (.ext 42 [1, 2, 3]) = .ok (Value.ext 42 [1, 2, 3]) ∧
    from_value .ext (Value.ext 42 [1, 2, 3]) = .ok (SValue.ext 42 [1, 2, 3]) :=
  ⟨rfl, by simp [from_value, truncS]⟩


/-- C3 counterexample: the claim says any contained value whose encoding
is not a well-shaped 2-element array yields a user-visible
malformed-extension error "rather than panicking"; but a contained value
encoding to `Arr [Nil, Nil]` (here, the tuple `((), ())`) drives
`vec[0].as_u64().unwrap()` into a panic, which is not the user-visible
`Error` outcome. -/
theorem claim_C3_ext_encode_counterexample :
    to_value (.newtypeStruct "_ExtStruct" (.seq [.unit, .unit])) =
      .error (.fatal "called Option::unwrap on a None value") ∧
    EncErr.fatal "called Option::unwrap on a None value" ≠
      EncErr.err (.message "invalid ext struct") := by
  constructor
  · simp [to_value, extStructName, toValueList, extEncode, as_u64]
  · decide

/-- C3 amended: encoding a newtype wrapper named `_ExtStruct` first
independently encodes the contained value; a 2-element `Arr` whose
element 0 is unsigned-coercible to at most 127 and whose element 1 is a
`Bin` becomes `Ext(tag, bytes)`; a non-`Arr`, wrong-arity, or
element-1-not-`Bin` shape yields the user-visible malformed-extension
error; but an element 0 that is not unsigned-coercible, or coerces above
`i8::MAX`, makes the encoder panic instead. -/
theorem claim_C3_ext_encode_shapes (v : SValue) (w : Value)
    (henc : to_value v = .ok w) :
    (∀ x0 x1 n d, w = .arr [x0, x1] → as_u64 x0 = some n → n ≤ 127 →
      x1 = .bin d →
      to_value (.newtypeStruct extStructName v) = .ok (.ext n d)) ∧
    (∀ x0 x1 n, w = .arr [x0, x1] → as_u64 x0 = some n → n ≤ 127 →
      as_slice x1 = none →
      to_value (.newtypeStruct extStructName v) =
        .error (.err (.message "invalid ext struct"))) ∧
    (∀ x0 x1, w = .arr [x0, x1] → as_u64 x0 = none →
      to_value (.newtypeStruct extStructName v) =
        .error (.fatal "called Option::unwrap on a None value")) ∧
    (∀ x0 x1 n, w = .arr [x0, x1] → as_u64 x0 = some n → 127 < n →
      to_value (.newtypeStruct extStructName v) =
        .error (.fatal "out of range integral type conversion attempted")) ∧
    ((∀ x0 x1, w ≠ .arr [x0, x1]) →
      to_value (.newtypeStruct extStructName v) =
        .error (.err (.message "invalid ext struct"))) := by
  have hrun : to_value (.newtypeStruct extStructName v) = extEncode w := by
    simp [to_value, henc]
  refine ⟨?_, ?_, ?_, ?_, ?_⟩
  · rintro x0 x1 n d rfl hu hle rfl
    rw [hrun]
    simp [extEncode, hu, hle]
  · rintro x0 x1 n rfl hu hle hs1
    rw [hrun]
    cases x1 with
    | bin bs => simp [as_slice] at hs1
    | _ => simp [extEncode, hu, hle]
  · rintro x0 x1 rfl hu
    rw [hrun]
    simp [extEncode, hu]
  · rintro x0 x1 n rfl hu hlt
    rw [hrun]
    simp [extEncode, hu]
    omega
  · intro hnot
    rw [hrun]
    cases w with
    | arr xs =>
      rcases xs with _ | ⟨x0, _ | ⟨x1, _ | ⟨x2, rest⟩⟩⟩ <;> simp [extEncode]
      exact absurd rfl (hnot x0 x1)
    | _ => simp [extEncode]

/-- Witness for C3: the tuple `(5u8, [9])` encodes to a well-shaped
2-element array, so the `_ExtStruct` wrapper around it encodes to
`Ext(5, [9])`. -/
theorem claim_C3_ext_encode_shapes_witness :
    to_value (SValue.seq [.uint .w8 5, .bytes [9]]) = .ok (.arr [.int 5, .bin [9]]) ∧
    to_value (.newtypeStruct extStructName (.seq [.uint .w8 5, .bytes [9]])) =
      .ok (.ext 5 [9]) :=
  ⟨rfl, (claim_C3_ext_encode_shapes (SValue.seq [.uint .w8 5, .bytes [9]])
    (Value.arr [.int 5, .bin [9]]) rfl).1 (.int 5) (.bin [9]) 5 [9] rfl
    (by decide) (by decide) rfl⟩


/-- C4: fixed-width integer decodes read through the matching 64-bit
accessor and narrow by a truncating cast with no overflow check: every
unsigned-64-representable `Int` source decodes at any unsigned width to
its value mod `2^bits`, every signed-64-representable source decodes at
any signed width to its two's-complement truncation, and concretely
`Int(300)` as `u8` succeeds with `300 mod 256 = 44`. -/
theorem claim_C4_truncating_decode (w : Width) (i : Int) :
    (0 ≤ i → i < 2 ^ 64 →
      from_value (.uint w) (.int i) = .ok (.uint w (i % 2 ^ w.bits))) ∧
    (-(2 ^ 63) ≤ i → i < 2 ^ 63 →
      from_value (.sint w) (.int i) = .ok (.sint w (truncS w.bits i))) ∧
    from_value (.uint .w8) (.int 300) = .ok (.uint .w8 44) := by
  refine ⟨?_, ?_, ?_⟩
  · intro h1 h2
    have hu : as_u64 (.int i) = some i := by simp [as_u64]; omega
    simp [from_value, hu, truncU]
  · intro h1 h2
    have hi : as_i64 (.int i) = some i := by simp [as_i64]; omega
    simp [from_value, hi]
  · have hu : as_u64 (.int 300) = some 300 := by simp [as_u64]
    simp [from_value, hu, truncU, Width.bits]

/-- Witness for C4: the in-range hypotheses hold at the concrete source
`Int(300)` for width 8. -/
theorem claim_C4_truncating_decode_witness :
    (0 : Int) ≤ 300 ∧ (300 : Int) < 2 ^ 64 ∧
    from_value (.uint .w8) (.int 300) = .ok (.uint .w8 (300 % 2 ^ Width.w8.bits)) :=
  ⟨by decide, by decide,
    (claim_C4_truncating_decode .w8 300).1 (by decide) (by decide)⟩

/-- C5 counterexample: decoding the string `"V"` as an enum whose matched
variant `V` is a newtype (payload-bearing) variant fails — but with the
`Format` (Malformed) error produced by serde's `invalid_type` through
`Error::custom`, not with the crate's `TypeError` (ShapeMismatch)
constructor as the claim states. -/
theorem claim_C5_payload_variant_counterexample :
    from_value (.enumPayload .newtype ["V"]) (.str "V") =
      .error (.format "invalid type: unit variant, expected newtype variant") ∧
    (∀ s, Error.format "invalid type: unit variant, expected newtype variant" ≠
      Error.typeError s) := by
  constructor
  · simp [from_value, as_str, VariantKind.expected]
  · intro s
    simp

/-- C5 amended: decoding any DynamicValue as a payload-bearing enum
variant always fails; when the value is a string naming a declared
variant, the failure is the `Format` error naming the unsupported variant
kind ("newtype variant" / "tuple variant" / "struct variant"); and only
the unit-variant request can succeed (it does, on a matching string). -/
theorem claim_C5_payload_variants_fail (k : VariantKind) (variants : List String)
    (v : Value) :
    (∃ e, from_value (.enumPayload k variants) v = .error e) ∧
    (∀ s, as_str v = some s → s ∈ variants →
      from_value (.enumPayload k variants) v =
        .error (.format ("invalid type: unit variant, expected " ++ k.expected))) ∧
    (∀ s, s ∈ variants →
      from_value (.enumUnit variants) (.str s) = .ok (.unitVariant s)) := by
  refine ⟨?_, ?_, ?_⟩
  · match hv : as_str v with
    | Option.none =>
      exact ⟨.typeError ("expected string: " ++ displayValue v),
        by simp [from_value, hv]⟩
    | Option.some s =>
      by_cases hm : s ∈ variants
      · exact ⟨.format ("invalid type: unit variant, expected " ++ k.expected),
          by simp [from_value, hv, hm]⟩
      · exact ⟨.format (unknownVariantMsg s), by simp [from_value, hv, hm]⟩
  · intro s hv hm
    simp [from_value, hv, hm]
  · intro s hm
    simp [from_value, as_str, hm]

/-- Witness for C5: concrete instances of all three conjuncts at a
one-variant enum. -/
theorem claim_C5_payload_variants_fail_witness :
    (∃ e, from_value (.enumPayload .tuple ["A"]) (.bool true) = .error e) ∧
    from_value (.enumPayload .tuple ["A"]) (.str "A") =
      .error (.format ("invalid type: unit variant, expected " ++
        VariantKind.tuple.expected)) ∧
    from_value (.enumUnit ["A"]) (.str "A") = .ok (.unitVariant "A") :=
  ⟨(claim_C5_payload_variants_fail .tuple ["A"] (.bool true)).1,
    (claim_C5_payload_variants_fail .tuple ["A"] (.str "A")).2.1 "A" rfl (by decide),
    (claim_C5_payload_variants_fail .tuple ["A"] (.str "A")).2.2 "A" (by decide)⟩

/-- C6: the untyped/any request dispatches on the runtime tag: `Nil` to
unit, `Bool` to boolean, `Int` to the 64-bit integer read, `Str` to text,
`Arr` to a sequence of recursively inferred elements, `Map` to a map of
recursively inferred entries, `Bin` to bytes; `F32`, `F64` and `Ext`
fail with the `Unsupported` error. -/
theorem claim_C6_any_dispatch :
    from_value .any .nil = .ok .unit ∧
    (∀ b, from_value .any (.bool b) = .ok (.bool b)) ∧
    (∀ i, -(2 ^ 63) ≤ i → i < 2 ^ 63 →
      from_value .any (.int i) = .ok (.sint .w64 i)) ∧
    (∀ s, from_value .any (.str s) = .ok (.str s)) ∧
    (∀ xs svs, fromAnyList xs = .ok svs →
      from_value .any (.arr xs) = .ok (.seq svs)) ∧
    (∀ es ps, fromAnyPairs es = .ok ps →
      from_value .any (.map es) = .ok (.map ps)) ∧
    (∀ bs, from_value .any (.bin bs) = .ok (.bytes bs)) ∧
    (∀ b, from_value .any (.f32 b) = .error .unsupportedType) ∧
    (∀ b, from_value .any (.f64 b) = .error .unsupportedType) ∧
    (∀ tag data, from_value .any (.ext tag data) = .error .unsupportedType) := by
  refine ⟨by simp [from_value, fromAny], fun b => by simp [from_value, fromAny],
    ?_, fun s => by simp [from_value, fromAny], ?_, ?_,
    fun bs => by simp [from_value, fromAny],
    fun b => by simp [from_value, fromAny], fun b => by simp [from_value, fromAny],
    fun tag data => by simp [from_value, fromAny]⟩
  · intro i h1 h2
    have hi : as_i64 (.int i) = some i := by simp [as_i64]; omega
    simp [from_value, fromAny, hi]
  · intro xs svs h
    simp [from_value, fromAny, h]
  · intro es ps h
    simp [from_value, fromAny, h]

/-- Witness for C6: concrete instances of the hypothesis-bearing
conjuncts (in-range integer, one-element array, one-entry map). -/
theorem claim_C6_any_dispatch_witness :
    from_value .any (.int 7) = .ok (.sint .w64 7) ∧
    from_value .any (.arr [.int 1]) = .ok (.seq [.sint .w64 1]) ∧
    from_value .any (.map [(.str "a", .bool true)]) =
      .ok (.map [(.str "a", .bool true)]) :=
  ⟨claim_C6_any_dispatch.2.2.1 7 (by decide) (by decide),
    claim_C6_any_dispatch.2.2.2.2.1 [.int 1] [.sint .w64 1] rfl,
    claim_C6_any_dispatch.2.2.2.2.2.1 [(.str "a", .bool true)]
      [(.str "a", .bool true)] rfl⟩


/-- C7: a sequence/tuple request dispatches by tag: `Bin` is exposed as a
byte-sequence shape; `Ext(tag, bytes)` is exposed as a fixed 2-element
sequence whose position 0 is the tag as an 8-bit signed integer,
position 1 is the byte payload, and every later position yields no more
elements; `Arr` is exposed element-by-element in stored order (into the
composite decode); every other tag fails with the shape error. -/
theorem claim_C7_seq_dispatch :
    (∀ bs, seqExposure (.bin bs) = .ok (.bytes bs)) ∧
    (∀ tag data, seqExposure (.ext tag data) = .ok (.extSeq tag data) ∧
      extElementAt tag data 0 = some (.tag (truncS 8 tag)) ∧
      extElementAt tag data 1 = some (.bytes data) ∧
      (∀ k, 2 ≤ k → extElementAt tag data k = none)) ∧
    (∀ xs, seqExposure (.arr xs) = .ok (.elems xs)) ∧
    (∀ t xs svs, fromValueList t xs = .ok svs →
      from_value (.seq t) (.arr xs) = .ok (.seq svs)) ∧
    seqExposure .nil = .error (.typeError "expected sequence type") ∧
    (∀ b, seqExposure (.bool b) = .error (.typeError "expected sequence type")) ∧
    (∀ i, seqExposure (.int i) = .error (.typeError "expected sequence type")) ∧
    (∀ b, seqExposure (.f32 b) = .error (.typeError "expected sequence type")) ∧
    (∀ b, seqExposure (.f64 b) = .error (.typeError "expected sequence type")) ∧
    (∀ s, seqExposure (.str s) = .error (.typeError "expected sequence type")) ∧
    (∀ es, seqExposure (.map es) = .error (.typeError "expected sequence type")) := by
  refine ⟨fun bs => rfl, ?_, fun xs => rfl, ?_, rfl, fun b => rfl, fun i => rfl,
    fun b => rfl, fun b => rfl, fun s => rfl, fun es => rfl⟩
  · intro tag data
    refine ⟨rfl, rfl, rfl, ?_⟩
    intro k hk
    match k, hk with
    | (n + 2), _ => rfl
  · intro t xs svs h
    simp [from_value, h]

/-- Witness for C7: past-the-end reads on a concrete `Ext` and the
element-by-element decode of a concrete `Arr`. -/
theorem claim_C7_seq_dispatch_witness :
    extElementAt 5 [1] 2 = none ∧
    from_value (.seq .bool) (.arr [.bool true]) = .ok (.seq [.bool true]) :=
  ⟨(claim_C7_seq_dispatch.2.1 5 [1]).2.2.2 2 (by decide),
    claim_C7_seq_dispatch.2.2.2.1 .bool [.bool true] [.bool true]
      (by simp [fromValueList, from_value, as_bool])⟩

/-- C8: every 32-bit-float decode request and every single-character
decode request fails with the `Unsupported` error (even though encoding
supports both f32 and char), and decoding a `Str` as an 8-bit signed
integer fails with the `TypeError` (ShapeMismatch) error. -/
theorem claim_C8_unsupported_requests (v : Value) (s : String) :
    from_value .f32 v = .error .unsupportedType ∧
    from_value .char v = .error .unsupportedType ∧
    (∀ bits, to_value (.f32 bits) = .ok (.f32 bits)) ∧
    (∀ c, to_value (.char c) = .ok (.str c.toString)) ∧
    from_value (.sint .w8) (.str s) = .error (.typeError "expected i8") := by
  refine ⟨by simp [from_value], by simp [from_value], fun bits => rfl, fun c => rfl, ?_⟩
  simp [from_value, as_i64, Width.bits]
  rfl

/-- C9: the silent truncation of fixed-width integer decodes stays inside
the sign domain of the 64-bit accessor: a negative `Int` source at any
unsigned width, and a source above `i64::MAX` at any signed width, fail
with the `TypeError` instead of truncating. -/
theorem claim_C9_sign_domain (w : Width) (i : Int) :
    (-(2 ^ 63) ≤ i → i < 0 →
      from_value (.uint w) (.int i) =
        .error (.typeError ("expected u" ++ toString w.bits))) ∧
    (2 ^ 63 ≤ i → i < 2 ^ 64 →
      from_value (.sint w) (.int i) =
        .error (.typeError ("expected i" ++ toString w.bits))) := by
  constructor
  · intro h1 h2
    have hu : as_u64 (.int i) = none := by simp [as_u64]; omega
    simp [from_value, hu]
  · intro h1 h2
    have hi : as_i64 (.int i) = none := by simp [as_i64]; omega
    simp [from_value, hi]

/-- Witness for C9: `Int(-1)` as `u8` and `Int(2^63)` as `i8` both fail
with the `TypeError`. -/
theorem claim_C9_sign_domain_witness :
    from_value (.uint .w8) (.int (-1)) =
      .error (.typeError ("expected u" ++ toString Width.w8.bits)) ∧
    from_value (.sint .w8) (.int (2 ^ 63)) =
      .error (.typeError ("expected i" ++ toString Width.w8.bits)) :=
  ⟨(claim_C9_sign_domain .w8 (-1)).1 (by decide) (by decide),
    (claim_C9_sign_domain .w8 (2 ^ 63)).2 (by decide) (by decide)⟩

/-- C10: encoding is not injective at `Nil`: the absent optional, unit,
and a unit struct all encode to `Nil`; a present optional encodes
transparently as its contained value; hence `Some(None)` encodes to
`Nil`, which decodes as the absent optional, so `Some(None)` does not
round-trip to itself. -/
theorem claim_C10_nil_collapse (v : SValue) (name : String) :
    to_value .optNone = .ok .nil ∧
    to_value .unit = .ok .nil ∧
    to_value (.unitStruct name) = .ok .nil ∧
    to_value (.optSome v) = to_value v ∧
    to_value (.optSome .optNone) = .ok .nil ∧
    (∀ t, from_value (.option t) .nil = .ok .optNone) ∧
    (Except.ok .optNone : Except Error SValue) ≠ .ok (.optSome .optNone) := by
  refine ⟨rfl, rfl, rfl, by simp [to_value], rfl, fun t => by simp [from_value], ?_⟩
  simp

end Rmpv
